import Mathlib

/-!
Shallow embedding of the omnet-leo LEO-constellation simulator core
(Satellite.cc, GroundStation.cc, InterSatelliteLink.cc, PositionUtils.cc),
with proofs about its routing engine, transmit-queue discipline, ground-station
handover and geodesy round trip.

Machine doubles are modelled as exact rationals (for the discrete protocol
state) and as reals (for the trigonometric geodesy), ids as integers.
-/

namespace LeoSim

/-! ## Routing engine (Satellite.h / Satellite.cc)

A routing entry mirrors `struct RoutingEntry { int destinationId; int nextHopId;
double cost; }`, a neighbour record mirrors `struct NeighborInfo` with the
module pointer replaced by the peer's id (the id the code reads back from the
module's parameters), and a routing advertisement mirrors `RoutingMessage`
with the two parallel vectors destIds / costs zipped into one list. -/

structure RoutingEntry where
  destinationId : Int
  nextHopId : Int
  cost : ℚ
deriving DecidableEq, Repr

structure NeighborInfo where
  nodeId : Int
  distance : ℚ
  gateIndex : Nat
deriving DecidableEq, Repr

structure RoutingMessage where
  sourceId : Int
  entries : List (Int × ℚ)
deriving DecidableEq, Repr

/-- The link-cost lookup loop of Satellite::processRoutingMessage: scan the
neighbour list for the advertisement's source and take its cached distance;
the cost stays 0.0 when the source is not a current neighbour. -/
def linkCostTo (neighbors : List NeighborInfo) (srcId : Int) : ℚ :=
  match neighbors.find? (fun n => n.nodeId == srcId) with
  | some n => n.distance
  | none => 0

/-- The in-place update loop of Satellite::processRoutingMessage over the
routing table: at the first entry whose destination matches, lower the route
to (nextHop, totalCost) when totalCost is strictly smaller, and stop; none
when no entry matches. -/
def updateFirst (table : List RoutingEntry) (destId nextHop : Int)
    (totalCost : ℚ) : Option (List RoutingEntry) :=
  match table with
  | [] => none
  | e :: rest =>
    if e.destinationId = destId then
      if totalCost < e.cost then
        some ({ destinationId := e.destinationId, nextHopId := nextHop,
                cost := totalCost } :: rest)
      else
        some (e :: rest)
    else
      (updateFirst rest destId nextHop totalCost).map (fun t => e :: t)

/-- One iteration of the advertisement loop of Satellite::processRoutingMessage:
totalCost = receivedCost + linkCost; update the first matching entry, else
append a fresh entry unless the destination is the receiving satellite. -/
def processAdvEntry (selfId srcId : Int) (linkCost : ℚ)
    (table : List RoutingEntry) (adv : Int × ℚ) : List RoutingEntry :=
  let destId := adv.1
  let totalCost := adv.2 + linkCost
  match updateFirst table destId srcId totalCost with
  | some t => t
  | none =>
    if destId = selfId then
      table
    else
      table ++ [{ destinationId := destId, nextHopId := srcId,
                  cost := totalCost }]

/-- Satellite::processRoutingMessage: fold the advertisement's entries over the
routing table.  The link cost to the source depends only on the source and the
neighbour list, so the per-entry recomputation in the C++ loop is hoisted. -/
def processRoutingMessage (selfId : Int) (neighbors : List NeighborInfo)
    (table : List RoutingEntry) (msg : RoutingMessage) : List RoutingEntry :=
  msg.entries.foldl
    (processAdvEntry selfId msg.sourceId (linkCostTo neighbors msg.sourceId))
    table

/-- The entry Satellite::updateRoutingTable builds for one neighbour:
destination = next hop = the neighbour's id, cost = its cached distance. -/
def entryOfNeighbor (n : NeighborInfo) : RoutingEntry :=
  { destinationId := n.nodeId, nextHopId := n.nodeId, cost := n.distance }

/-- Satellite::updateRoutingTable: clear the table and rebuild one direct entry
per current neighbour. -/
def updateRoutingTable (neighbors : List NeighborInfo) : List RoutingEntry :=
  neighbors.map entryOfNeighbor

/-- The destinations stored in a routing table, in order. -/
def destIds (table : List RoutingEntry) : List Int :=
  table.map RoutingEntry.destinationId

/-- Table invariant: at most one entry per destination. -/
def uniqueDest (table : List RoutingEntry) : Prop :=
  (destIds table).Nodup

/-- Table invariant: every stored next hop is the id of a current neighbour. -/
def nextHopIsNeighbor (neighbors : List NeighborInfo)
    (table : List RoutingEntry) : Prop :=
  ∀ e ∈ table, ∃ n ∈ neighbors, n.nodeId = e.nextHopId

/-! ## Data-packet handling and statistics (Satellite.cc handleMessage / finish) -/

/-- The fields of DataPacket the handler reads or writes (DataPacket.h). -/
structure DataPacket where
  sourceId : Int
  destinationId : Int
  packetId : Int
  hopCount : Int
  bitLength : Int
deriving DecidableEq, Repr

/-- What Satellite::handleMessage does with a DataPacket: consume it as the
final destination, forward it, or drop it for lack of a route. -/
inductive PacketFate
  | consumed
  | forwarded
  | droppedNoRoute
deriving DecidableEq, Repr

/-- The satellite counters touched by the DataPacket branch of handleMessage. -/
structure SatStats where
  packetsReceived : Int
  packetsForwarded : Int
  packetsDropped : Int
deriving DecidableEq, Repr

/-- The routeFound scan of Satellite::handleMessage: does the routing table
hold an entry for this destination? -/
def hasRoute (table : List RoutingEntry) (d : Int) : Bool :=
  table.any (fun e => e.destinationId == d)

/-- The DataPacket branch of Satellite::handleMessage (lines 131-177): if the
packet's destination is this satellite, count it received and consume it;
otherwise count it forwarded, bump the hop count, then route it if the table
has an entry for the destination and drop it (also counting the drop)
otherwise. -/
def handleDataPacket (selfId : Int) (table : List RoutingEntry) (st : SatStats)
    (p : DataPacket) : SatStats × DataPacket × PacketFate :=
  if p.destinationId = selfId then
    ({ st with packetsReceived := st.packetsReceived + 1 }, p, .consumed)
  else
    let st1 := { st with packetsForwarded := st.packetsForwarded + 1 }
    let p1 := { p with hopCount := p.hopCount + 1 }
    if hasRoute table p1.destinationId then
      (st1, p1, .forwarded)
    else
      ({ st1 with packetsDropped := st1.packetsDropped + 1 }, p1,
        .droppedNoRoute)

/-- totalSuccess of Satellite::finish: received plus forwarded packets. -/
def totalSuccess (st : SatStats) : Int :=
  st.packetsReceived + st.packetsForwarded

/-- totalAttempts of Satellite::finish: successes plus drops. -/
def totalAttempts (st : SatStats) : Int :=
  totalSuccess st + st.packetsDropped

/-- The PacketDeliveryRatio scalar of Satellite::finish: successes over
attempts, and 1.0 for an idle satellite. -/
def pdr (st : SatStats) : ℚ :=
  if 0 < totalAttempts st then
    (totalSuccess st : ℚ) / (totalAttempts st : ℚ)
  else 1

/-! ## Inter-satellite link latency (InterSatelliteLink.cc) -/

namespace InterSatelliteLink

/-- InterSatelliteLink::calculateLatency: propagation delay computed with the
local constant SPEED_OF_LIGHT = 299792.456 km/s, plus the baseLatency
parameter (milliseconds) converted to seconds. -/
def calculateLatency (baseLatency dist : ℚ) : ℚ :=
  dist / (299792456 / 1000) + baseLatency / 1000

/-- Modelled from the spec: the one-way ISL latency the spec prescribes,
d/c + 1 ms with c = 299792.458 km/s. -/
def specLatency (dist : ℚ) : ℚ :=
  dist / (299792458 / 1000) + 1 / 1000

end InterSatelliteLink

/-! ## Transmit queue (Satellite.cc sendOrQueue / processTxQueue)

A queued message carries its bit length and the outbound gate index the code
stashes in the context pointer.  Channel state is the per-gate transmission
finish time: OMNeT marks a datarate channel busy while now is before that
time, and sending a message of L bits over a channel of D bits/s at time now
moves the finish time to now + L/D (spec section 4.3). -/

structure TxMsg where
  bitLength : ℚ
  gateIndex : Nat
deriving DecidableEq, Repr

/-- Satellite-side transmit state: the FIFO txQueue, the per-gate channel
finish times, the per-gate channel datarates, the txFinishTimer (whether it is
scheduled and for when), the messages handed to send(), and the drop
counter. -/
structure SatTxState where
  queue : List TxMsg
  busyUntil : Nat → ℚ
  datarate : Nat → ℚ
  timerScheduled : Bool
  timerAt : ℚ
  sent : List TxMsg
  packetsDropped : Int

namespace Satellite

/-- Satellite::processTxQueue: peek the head; if its gate's channel is busy,
schedule the txFinishTimer at the channel's finish time unless it is already
scheduled; otherwise pop the head and send it (one message per invocation). -/
def processTxQueue (now : ℚ) (s : SatTxState) : SatTxState :=
  match s.queue with
  | [] => s
  | m :: rest =>
    if now < s.busyUntil m.gateIndex then
      if s.timerScheduled then s
      else { s with timerScheduled := true, timerAt := s.busyUntil m.gateIndex }
    else
      { s with queue := rest,
               sent := s.sent ++ [m],
               busyUntil := fun g =>
                 if g = m.gateIndex then
                   now + m.bitLength / s.datarate m.gateIndex
                 else s.busyUntil g }

/-- Satellite::sendOrQueue: tail-drop (counting it) when the queue already
holds maxQueueSize messages, otherwise append and run processTxQueue. -/
def sendOrQueue (maxQueueSize : Nat) (now : ℚ) (s : SatTxState) (m : TxMsg) :
    SatTxState :=
  if maxQueueSize ≤ s.queue.length then
    { s with packetsDropped := s.packetsDropped + 1 }
  else
    processTxQueue now { s with queue := s.queue ++ [m] }

end Satellite

/-! ## Ground-station transmit path (GroundStation.cc sendOrQueue /
processTxQueue / sendToCurrentSatellite)

The ground station drives a single dynamic gate (groundLink$o index 0), so its
channel state is one finish time and one datarate; attached mirrors
currentSatellite != nullptr, gateCount mirrors gateSize("groundLink"), and
gateConnected mirrors outGate->isConnected(). -/

structure GSTxState where
  queue : List TxMsg
  gateCount : Nat
  gateConnected : Bool
  busyUntil : ℚ
  datarate : ℚ
  timerScheduled : Bool
  timerAt : ℚ
  sent : List TxMsg
  packetsSent : Int
  packetsDropped : Int
  attached : Bool
deriving DecidableEq, Repr

namespace GroundStation

/-- GroundStation::processTxQueue: return untouched when the queue is empty,
the gate array is empty, or the gate is disconnected; with a busy channel
schedule the txFinishTimer at the finish time unless already scheduled;
otherwise pop the head and send it (one message per invocation). -/
def processTxQueue (now : ℚ) (g : GSTxState) : GSTxState :=
  match g.queue with
  | [] => g
  | m :: rest =>
    if g.gateCount = 0 then g
    else if g.gateConnected = false then g
    else if now < g.busyUntil then
      if g.timerScheduled then g
      else { g with timerScheduled := true, timerAt := g.busyUntil }
    else
      { g with queue := rest,
               sent := g.sent ++ [m],
               busyUntil := now + m.bitLength / g.datarate }

/-- GroundStation::sendOrQueue: tail-drop (counting it) when the queue already
holds maxQueueSize messages, otherwise append and run processTxQueue. -/
def sendOrQueue (maxQueueSize : Nat) (now : ℚ) (g : GSTxState) (m : TxMsg) :
    GSTxState :=
  if maxQueueSize ≤ g.queue.length then
    { g with packetsDropped := g.packetsDropped + 1 }
  else
    processTxQueue now { g with queue := g.queue ++ [m] }

/-- GroundStation::sendToCurrentSatellite: with no current satellite or an
empty gate array, or with the dynamic gate disconnected, drop the message and
count it; otherwise count a sent data packet and enqueue on gate 0. -/
def sendToCurrentSatellite (maxQueueSize : Nat) (now : ℚ) (g : GSTxState)
    (m : TxMsg) (isData : Bool) : GSTxState :=
  if g.attached = false ∨ g.gateCount = 0 then
    { g with packetsDropped := g.packetsDropped + 1 }
  else if g.gateConnected = false then
    { g with packetsDropped := g.packetsDropped + 1 }
  else
    let g1 := if isData then { g with packetsSent := g.packetsSent + 1 } else g
    sendOrQueue maxQueueSize now g1 m

end GroundStation

/-! ## Ground-station handover (GroundStation.cc findNearestSatellite /
performHandover / connectToSatellite / disconnectFromSatellite)

Satellites are referred to by id.  Their current distance to the ground
station (the code recomputes it from the orbital elements at the current time
and takes the Euclidean distance) enters as a distance assignment, so that the
selection and rewiring logic is modelled exactly while the orbital trigonometry
is treated separately. -/

/-- One dynamic radio channel as connectToSatellite creates it: its direction
(ground-to-satellite or back), its datarate in bit/s, and its one-way delay in
seconds. -/
structure LinkRec where
  fromGround : Bool
  datarate : ℚ
  delay : ℚ
deriving DecidableEq, Repr

/-- Ground-station attachment state: the current satellite (if any), the
groundLink gate-array size, every satellite's radio gate-array size, the gate
index held on the serving satellite (-1 when detached), and the dynamic links
currently wired. -/
structure GSHandoverState where
  attached : Option Int
  gsGateCount : Nat
  satGates : Int → Nat
  satGateIndex : Int
  activeLinks : List LinkRec

namespace GroundStation

/-- GroundStation::findNearestSatellite: scan the satellites, keeping the one
at minimal distance, with minDistance starting at maxRange and a candidate
admitted when its distance is at most maxRange and below the running
minimum. -/
def findNearestSatellite (maxRange : ℚ) (dist : Int → ℚ) (sats : List Int) :
    Option Int :=
  (sats.foldl
    (fun acc s =>
      if dist s ≤ maxRange ∧ dist s < acc.2 then (some s, dist s) else acc)
    ((none : Option Int), maxRange)).1

/-- GroundStation::connectToSatellite: ensure one groundLink gate, grow the
satellite's radio gate arrays by one and take the fresh index, compute
delay = distance / 299792.458 + 0.001 s, and wire two fresh 4 Gb/s channels
(ground-to-satellite and satellite-to-ground) with that delay. -/
def connectToSatellite (dist : Int → ℚ) (s : Int) (st : GSHandoverState) :
    GSHandoverState :=
  let totalDelay := dist s / (299792458 / 1000) + 1 / 1000
  { st with
    gsGateCount := if st.gsGateCount = 0 then 1 else st.gsGateCount,
    satGates := fun k => if k = s then st.satGates s + 1 else st.satGates k,
    satGateIndex := (st.satGates s : Int),
    activeLinks := st.activeLinks ++
      [{ fromGround := true, datarate := 4000000000, delay := totalDelay },
       { fromGround := false, datarate := 4000000000, delay := totalDelay }] }

/-- GroundStation::disconnectFromSatellite: with no groundLink gate do
nothing; otherwise disconnect both directions of the dynamic link and
invalidate the satellite-side gate index. -/
def disconnectFromSatellite (st : GSHandoverState) : GSHandoverState :=
  if st.gsGateCount = 0 then st
  else { st with activeLinks := [], satGateIndex := -1 }

/-- GroundStation::performHandover: when the nearest in-range satellite is the
current one do nothing; otherwise disconnect from the old satellite (when
attached), record the new one, and connect to it (when there is one). -/
def performHandover (maxRange : ℚ) (dist : Int → ℚ) (sats : List Int)
    (st : GSHandoverState) : GSHandoverState :=
  let best := findNearestSatellite maxRange dist sats
  if best = st.attached then st
  else
    let st1 := if st.attached.isSome then disconnectFromSatellite st else st
    let st2 := { st1 with attached := best }
    match best with
    | some s => connectToSatellite dist s st2
    | none => st2

end GroundStation

/-! ## Geodesy (PositionUtils.cc)

The geographic / ECEF conversions use real arithmetic; sin, cos, asin and
atan2 are the mathematical functions, and atan2(y, x) is the argument of the
complex number x + y i (its principal value in (-pi, pi], which is what the C
library function computes). -/

namespace Geo

structure GeoCoord where
  latitude : ℝ
  longitude : ℝ
  altitude : ℝ

structure Position3D where
  x : ℝ
  y : ℝ
  z : ℝ

/-- EARTH_RADIUS from PositionUtils.h, in km. -/
def earthRadius : ℝ := 6371

/-- deg2rad from PositionUtils.cc. -/
noncomputable def deg2rad (deg : ℝ) : ℝ := deg * Real.pi / 180

/-- C's atan2(y, x), modelled as the principal argument of x + y i. -/
noncomputable def atan2 (y x : ℝ) : ℝ := Complex.arg ⟨x, y⟩

/-- geoToECEF from PositionUtils.cc: spherical Earth of radius 6371 km. -/
noncomputable def geoToECEF (geo : GeoCoord) : Position3D :=
  let latRad := deg2rad geo.latitude
  let lonRad := deg2rad geo.longitude
  let r := earthRadius + geo.altitude
  { x := r * Real.cos latRad * Real.cos lonRad,
    y := r * Real.cos latRad * Real.sin lonRad,
    z := r * Real.sin latRad }

/-- ecefToGeo from PositionUtils.cc: the spherical inverse via asin and
atan2. -/
noncomputable def ecefToGeo (pos : Position3D) : GeoCoord :=
  let r := Real.sqrt (pos.x * pos.x + pos.y * pos.y + pos.z * pos.z)
  { latitude := Real.arcsin (pos.z / r) * 180 / Real.pi,
    longitude := atan2 pos.y pos.x * 180 / Real.pi,
    altitude := r - earthRadius }

end Geo

/-! ## Lemmas on the routing-table update -/

theorem updateFirst_append (pre post : List RoutingEntry) (e : RoutingEntry)
    (d nh : Int) (t : ℚ)
    (hpre : ∀ x ∈ pre, x.destinationId ≠ d) (he : e.destinationId = d) :
    updateFirst (pre ++ e :: post) d nh t =
      some (pre ++ (if t < e.cost then
        { destinationId := e.destinationId, nextHopId := nh, cost := t }
        else e) :: post) := by
  induction pre with
  | nil =>
    simp only [List.nil_append, updateFirst, he, if_pos]
    split <;> rfl
  | cons x xs ih =>
    have hx : x.destinationId ≠ d := hpre x (by simp)
    have ihh := ih (fun y hy => hpre y (by simp [hy]))
    simp [updateFirst, hx, ihh]

theorem updateFirst_eq_none_iff (table : List RoutingEntry) (d nh : Int)
    (t : ℚ) :
    updateFirst table d nh t = none ↔ ∀ x ∈ table, x.destinationId ≠ d := by
  induction table with
  | nil => simp [updateFirst]
  | cons e rest ih =>
    by_cases he : e.destinationId = d
    · simp only [updateFirst, he, if_pos]
      constructor
      · intro h; split at h <;> simp at h
      · intro h; exact absurd he (h e (by simp))
    · simp [updateFirst, he, Option.map_eq_none', ih]

theorem updateFirst_some (table t' : List RoutingEntry) (d nh : Int) (t : ℚ)
    (h : updateFirst table d nh t = some t') :
    destIds t' = destIds table ∧ ∀ x ∈ t', x ∈ table ∨ x.nextHopId = nh := by
  induction table generalizing t' with
  | nil => simp [updateFirst] at h
  | cons e rest ih =>
    by_cases he : e.destinationId = d
    · simp only [updateFirst] at h
      rw [if_pos he] at h
      split at h <;> rw [Option.some_inj] at h <;> subst h
      · refine ⟨by simp [destIds], ?_⟩
        intro x hx
        rcases List.mem_cons.1 hx with hx | hx
        · right; rw [hx]
        · left; exact List.mem_cons_of_mem _ hx
      · exact ⟨rfl, fun x hx => Or.inl hx⟩
    · simp only [updateFirst] at h
      rw [if_neg he, Option.map_eq_some'] at h
      obtain ⟨t'', ht'', rfl⟩ := h
      obtain ⟨h1, h2⟩ := ih t'' ht''
      refine ⟨by simp [destIds] at h1 ⊢; exact h1, ?_⟩
      intro x hx
      rcases List.mem_cons.1 hx with hx | hx
      · left; rw [hx]; exact List.mem_cons_self _ _
      · rcases h2 x hx with hm | hm
        · left; exact List.mem_cons_of_mem _ hm
        · right; exact hm

theorem processAdvEntry_destIds_or (selfId srcId : Int) (lc : ℚ)
    (table : List RoutingEntry) (a : Int × ℚ) :
    destIds (processAdvEntry selfId srcId lc table a) = destIds table ∨
      (destIds (processAdvEntry selfId srcId lc table a) =
          destIds table ++ [a.1]
        ∧ ∀ x ∈ table, x.destinationId ≠ a.1) := by
  cases hu : updateFirst table a.1 srcId (a.2 + lc) with
  | some t' =>
    left
    have h1 := (updateFirst_some table t' a.1 srcId (a.2 + lc) hu).1
    simp only [processAdvEntry, hu]
    exact h1
  | none =>
    by_cases hself : a.1 = selfId
    · left
      simp only [processAdvEntry, hu, if_pos hself]
    · right
      refine ⟨?_, (updateFirst_eq_none_iff table a.1 srcId (a.2 + lc)).1 hu⟩
      simp only [processAdvEntry, hu, if_neg hself]
      simp [destIds]

theorem processAdvEntry_mem (selfId srcId : Int) (lc : ℚ)
    (table : List RoutingEntry) (a : Int × ℚ) (x : RoutingEntry)
    (hx : x ∈ processAdvEntry selfId srcId lc table a) :
    x ∈ table ∨ x.nextHopId = srcId := by
  cases hu : updateFirst table a.1 srcId (a.2 + lc) with
  | some t' =>
    simp only [processAdvEntry, hu] at hx
    exact (updateFirst_some table t' a.1 srcId (a.2 + lc) hu).2 x hx
  | none =>
    by_cases hself : a.1 = selfId
    · simp only [processAdvEntry, hu, if_pos hself] at hx
      exact Or.inl hx
    · simp only [processAdvEntry, hu, if_neg hself, List.mem_append] at hx
      rcases hx with hx | hx
      · exact Or.inl hx
      · right; rw [List.mem_singleton] at hx; rw [hx]

theorem uniqueDest_processAdvEntry (selfId srcId : Int) (lc : ℚ)
    (table : List RoutingEntry) (a : Int × ℚ) (h : uniqueDest table) :
    uniqueDest (processAdvEntry selfId srcId lc table a) := by
  rcases processAdvEntry_destIds_or selfId srcId lc table a with
    hEq | ⟨hEq, hnot⟩
  · unfold uniqueDest; rw [hEq]; exact h
  · unfold uniqueDest
    rw [hEq, List.nodup_append]
    refine ⟨h, by simp, ?_⟩
    intro b hb hb2
    rw [List.mem_singleton] at hb2
    subst hb2
    obtain ⟨x, hx, hxd⟩ := List.mem_map.1 hb
    exact hnot x hx hxd

theorem nextHop_processAdvEntry (neighbors : List NeighborInfo)
    (selfId srcId : Int) (lc : ℚ) (table : List RoutingEntry) (a : Int × ℚ)
    (hsrc : ∃ n ∈ neighbors, n.nodeId = srcId)
    (h : nextHopIsNeighbor neighbors table) :
    nextHopIsNeighbor neighbors (processAdvEntry selfId srcId lc table a) := by
  intro e he
  rcases processAdvEntry_mem selfId srcId lc table a e he with hm | hm
  · exact h e hm
  · obtain ⟨n, hn, hnid⟩ := hsrc
    exact ⟨n, hn, by rw [hnid, hm]⟩

theorem uniqueDest_fold (selfId srcId : Int) (lc : ℚ)
    (entries : List (Int × ℚ)) (table : List RoutingEntry)
    (h : uniqueDest table) :
    uniqueDest (entries.foldl (processAdvEntry selfId srcId lc) table) := by
  induction entries generalizing table with
  | nil => simpa
  | cons a as ih =>
    exact ih _ (uniqueDest_processAdvEntry selfId srcId lc table a h)

theorem nextHop_fold (neighbors : List NeighborInfo) (selfId srcId : Int)
    (lc : ℚ) (entries : List (Int × ℚ)) (table : List RoutingEntry)
    (hsrc : ∃ n ∈ neighbors, n.nodeId = srcId)
    (h : nextHopIsNeighbor neighbors table) :
    nextHopIsNeighbor neighbors
      (entries.foldl (processAdvEntry selfId srcId lc) table) := by
  induction entries generalizing table with
  | nil => simpa
  | cons a as ih =>
    exact ih _ (nextHop_processAdvEntry neighbors selfId srcId lc table a
      hsrc h)

/-! ## Claim theorems -/

/-- Claim C1: processing one advertisement entry (dest, cost) from source S
with total = cost + link-cost-to-S replaces an existing entry for dest by
(dest, S, total) exactly when total is strictly below the stored cost (ties
keep the old route), inserts (dest, S, total) when no entry for dest exists
and dest is not the receiving satellite, leaves the table unchanged when no
entry exists and dest is the receiver itself, and any change to an existing
entry therefore strictly decreases the stored cost. -/
theorem processRoutingMessage_spec (selfId S d : Int) (c : ℚ)
    (neighbors : List NeighborInfo) (table pre post : List RoutingEntry)
    (e : RoutingEntry) :
    (table = pre ++ e :: post → e.destinationId = d →
      (∀ x ∈ pre, x.destinationId ≠ d) →
      (processRoutingMessage selfId neighbors table ⟨S, [(d, c)]⟩ =
        if c + linkCostTo neighbors S < e.cost then
          pre ++ { destinationId := d, nextHopId := S,
                   cost := c + linkCostTo neighbors S } :: post
        else table)
      ∧ (processRoutingMessage selfId neighbors table ⟨S, [(d, c)]⟩ ≠ table →
          c + linkCostTo neighbors S < e.cost))
  ∧ ((∀ x ∈ table, x.destinationId ≠ d) → d ≠ selfId →
      processRoutingMessage selfId neighbors table ⟨S, [(d, c)]⟩ =
        table ++ [{ destinationId := d, nextHopId := S,
                    cost := c + linkCostTo neighbors S }])
  ∧ ((∀ x ∈ table, x.destinationId ≠ d) → d = selfId →
      processRoutingMessage selfId neighbors table ⟨S, [(d, c)]⟩ = table) := by
  have hsingle : processRoutingMessage selfId neighbors table ⟨S, [(d, c)]⟩ =
      processAdvEntry selfId S (linkCostTo neighbors S) table (d, c) := by
    simp [processRoutingMessage]
  refine ⟨?_, ?_, ?_⟩
  · intro htab he hpre
    have hupd := updateFirst_append pre post e d S (c + linkCostTo neighbors S)
      hpre he
    have hmain : processRoutingMessage selfId neighbors table ⟨S, [(d, c)]⟩ =
        if c + linkCostTo neighbors S < e.cost then
          pre ++ { destinationId := d, nextHopId := S,
                   cost := c + linkCostTo neighbors S } :: post
        else table := by
      rw [hsingle, htab]
      simp only [processAdvEntry, hupd]
      split
      · simp [he]
      · rfl
    refine ⟨hmain, ?_⟩
    intro hne
    by_contra hlt
    rw [hmain, if_neg hlt] at hne
    exact hne rfl
  · intro hnone hself
    have hu : updateFirst table d S (c + linkCostTo neighbors S) = none :=
      (updateFirst_eq_none_iff table d S (c + linkCostTo neighbors S)).2 hnone
    rw [hsingle]
    simp only [processAdvEntry, hu, if_neg hself]
  · intro hnone hself
    have hu : updateFirst table d S (c + linkCostTo neighbors S) = none :=
      (updateFirst_eq_none_iff table d S (c + linkCostTo neighbors S)).2 hnone
    rw [hsingle]
    simp only [processAdvEntry, hu, if_pos hself]

/-- Witness for C1: a table holding (3, 9, 10), an advertisement (3, 1) from
neighbour 2 at link cost 2, total 3 < 10, so the entry becomes (3, 2, 3). -/
theorem processRoutingMessage_spec_witness :
    processRoutingMessage 1 [⟨2, 2, 0⟩] [⟨3, 9, 10⟩] ⟨2, [(3, 1)]⟩ =
      [{ destinationId := 3, nextHopId := 2, cost := 3 }] := by
  have h := ((processRoutingMessage_spec 1 2 3 1 [⟨2, 2, 0⟩] [⟨3, 9, 10⟩] []
    [] ⟨3, 9, 10⟩).1 rfl rfl (by simp)).1
  rw [h]
  norm_num [linkCostTo]

/-- Counterexample for C3: satellite 1 with an empty neighbour list processes
an advertisement from node 2; the table afterwards holds an entry whose next
hop (2) is not a current neighbour. -/
theorem processRoutingMessage_nonNeighbor_nextHop :
    ¬ nextHopIsNeighbor [] (processRoutingMessage 1 [] [] ⟨2, [(3, 5)]⟩) := by
  have hEq : processRoutingMessage 1 [] [] ⟨2, [(3, 5)]⟩ =
      [{ destinationId := 3, nextHopId := 2, cost := 5 }] := by
    simp [processRoutingMessage, processAdvEntry, updateFirst, linkCostTo]
  rw [hEq]
  intro h
  have h2 := h ⟨3, 2, 5⟩ (by simp)
  simp at h2

/-- Amended claim C3: processing an advertisement preserves at-most-one entry
per destination; when the advertisement's source is a current neighbour it
also preserves the every-next-hop-is-a-neighbour invariant; and a local table
rebuild establishes both (uniqueness given pairwise-distinct neighbour ids).
An advertisement from a non-neighbour can break the next-hop invariant. -/
theorem routing_table_invariants (selfId : Int) (neighbors : List NeighborInfo)
    (table : List RoutingEntry) (msg : RoutingMessage) :
    (uniqueDest table →
      uniqueDest (processRoutingMessage selfId neighbors table msg))
  ∧ ((∃ n ∈ neighbors, n.nodeId = msg.sourceId) →
      nextHopIsNeighbor neighbors table →
      nextHopIsNeighbor neighbors
        (processRoutingMessage selfId neighbors table msg))
  ∧ ((neighbors.map NeighborInfo.nodeId).Nodup →
      uniqueDest (updateRoutingTable neighbors))
  ∧ nextHopIsNeighbor neighbors (updateRoutingTable neighbors) := by
  refine ⟨?_, ?_, ?_, ?_⟩
  · intro h
    exact uniqueDest_fold selfId msg.sourceId (linkCostTo neighbors msg.sourceId)
      msg.entries table h
  · intro hsrc h
    exact nextHop_fold neighbors selfId msg.sourceId
      (linkCostTo neighbors msg.sourceId) msg.entries table hsrc h
  · intro h
    unfold uniqueDest destIds updateRoutingTable
    rw [List.map_map]
    exact h
  · intro e he
    obtain ⟨n, hn, rfl⟩ := List.mem_map.1 he
    exact ⟨n, hn, rfl⟩

/-- Witness for the amended C3: satellite 1 with the single neighbour 2 at
distance 5, table rebuilt from it, processing an advertisement from that
neighbour keeps both invariants. -/
theorem routing_table_invariants_witness :
    uniqueDest (processRoutingMessage 1 [⟨2, 5, 0⟩] [⟨2, 2, 5⟩] ⟨2, [(3, 1)]⟩)
  ∧ nextHopIsNeighbor [⟨2, 5, 0⟩]
      (processRoutingMessage 1 [⟨2, 5, 0⟩] [⟨2, 2, 5⟩] ⟨2, [(3, 1)]⟩)
  ∧ uniqueDest (updateRoutingTable [⟨2, 5, 0⟩]) := by
  obtain ⟨h1, h2, h3, h4⟩ :=
    routing_table_invariants 1 [⟨2, 5, 0⟩] [⟨2, 2, 5⟩] ⟨2, [(3, 1)]⟩
  refine ⟨h1 ?_, h2 ⟨⟨2, 5, 0⟩, by simp, rfl⟩ ?_, h3 ?_⟩
  · simp [uniqueDest, destIds]
  · intro e he
    simp at he
    exact ⟨⟨2, 5, 0⟩, by simp, by rw [he]⟩
  · simp

/-- Claim C2 (violated by the code): satellite 2 handling a data packet whose
destination is 2 consumes it as the final destination and counts it received,
so a satellite is a sink of user traffic. -/
theorem satellite_consumes_own_traffic :
    (handleDataPacket 2 [] ⟨0, 0, 0⟩ ⟨1, 2, 7, 0, 8192⟩).2.2 =
      PacketFate.consumed
  ∧ (handleDataPacket 2 [] ⟨0, 0, 0⟩ ⟨1, 2, 7, 0, 8192⟩).1.packetsReceived
      = 1 := by
  refine ⟨?_, ?_⟩ <;> norm_num [handleDataPacket]

/-- Claim C4 (violated by the code): InterSatelliteLink::calculateLatency
divides by 299792.456, not the speed of light 299792.458 of the spec, so at
distance 299792.456 km with baseLatency 1 ms the code yields exactly 1.001 s
while the spec formula does not. -/
theorem calculateLatency_wrong_speed_of_light :
    InterSatelliteLink.calculateLatency 1 (299792456 / 1000) = 1001 / 1000
  ∧ InterSatelliteLink.specLatency (299792456 / 1000) ≠ 1001 / 1000 := by
  constructor
  · norm_num [InterSatelliteLink.calculateLatency]
  · norm_num [InterSatelliteLink.specLatency]

/-- Claim C10: a satellite handling a data packet addressed to another node
with no routing-table entry for it counts the packet both as forwarded and as
dropped, so such a packet raises the success total of the delivery ratio by
one and its attempt total by two. -/
theorem noRoute_counts_as_forwarded_and_dropped (selfId : Int)
    (table : List RoutingEntry) (st : SatStats) (p : DataPacket)
    (hdest : p.destinationId ≠ selfId)
    (hroute : hasRoute table p.destinationId = false) :
    (handleDataPacket selfId table st p).2.2 = PacketFate.droppedNoRoute
  ∧ (handleDataPacket selfId table st p).1.packetsForwarded =
      st.packetsForwarded + 1
  ∧ (handleDataPacket selfId table st p).1.packetsDropped =
      st.packetsDropped + 1
  ∧ totalSuccess (handleDataPacket selfId table st p).1 = totalSuccess st + 1
  ∧ totalAttempts (handleDataPacket selfId table st p).1 =
      totalAttempts st + 2 := by
  have hEq : handleDataPacket selfId table st p =
      ({ st with packetsForwarded := st.packetsForwarded + 1,
                 packetsDropped := st.packetsDropped + 1 },
       { p with hopCount := p.hopCount + 1 }, PacketFate.droppedNoRoute) := by
    simp [handleDataPacket, hdest, hroute]
  rw [hEq]
  refine ⟨rfl, rfl, rfl, ?_, ?_⟩ <;> simp [totalSuccess, totalAttempts] <;> ring

/-- Witness for C10: a fresh satellite 1 with an empty table dropping a
packet for node 2 ends with one forwarded, one dropped, one success and two
attempts. -/
theorem noRoute_counts_witness :
    (handleDataPacket 1 [] ⟨0, 0, 0⟩ ⟨3, 2, 0, 0, 8192⟩).2.2 =
      PacketFate.droppedNoRoute
  ∧ (handleDataPacket 1 [] ⟨0, 0, 0⟩ ⟨3, 2, 0, 0, 8192⟩).1.packetsForwarded = 1
  ∧ (handleDataPacket 1 [] ⟨0, 0, 0⟩ ⟨3, 2, 0, 0, 8192⟩).1.packetsDropped = 1
  ∧ totalSuccess (handleDataPacket 1 [] ⟨0, 0, 0⟩ ⟨3, 2, 0, 0, 8192⟩).1 = 1
  ∧ totalAttempts (handleDataPacket 1 [] ⟨0, 0, 0⟩ ⟨3, 2, 0, 0, 8192⟩).1 = 2 := by
  have h := noRoute_counts_as_forwarded_and_dropped 1 [] ⟨0, 0, 0⟩
    ⟨3, 2, 0, 0, 8192⟩ (by decide) (by decide)
  obtain ⟨h1, h2, h3, h4, h5⟩ := h
  refine ⟨h1, by rw [h2]; norm_num, by rw [h3]; norm_num,
    by rw [h4]; decide, by rw [h5]; decide⟩

/-- One invocation of Satellite::processTxQueue never grows the queue. -/
theorem processTxQueue_queue_le (now : ℚ) (s : SatTxState) :
    (Satellite.processTxQueue now s).queue.length ≤ s.queue.length := by
  cases hq : s.queue with
  | nil => simp [Satellite.processTxQueue, hq]
  | cons m rest =>
    simp only [Satellite.processTxQueue, hq]
    split
    · split <;> simp [hq]
    · simp [hq]

/-- One invocation of GroundStation::processTxQueue never grows the queue. -/
theorem gs_processTxQueue_queue_le (now : ℚ) (g : GSTxState) :
    (GroundStation.processTxQueue now g).queue.length ≤ g.queue.length := by
  cases hq : g.queue with
  | nil => simp [GroundStation.processTxQueue, hq]
  | cons m rest =>
    simp only [GroundStation.processTxQueue, hq]
    split
    · simp [hq]
    · split
      · simp [hq]
      · split
        · split <;> simp [hq]
        · simp [hq]

/-- Counterexample for C5: at time 0 with a free channel and two zero-length
messages queued, one invocation of Satellite::processTxQueue transmits only
the head; afterwards the queue is still non-empty, the channel still free and
the gate still connected, yet nothing more was sent in that invocation. -/
theorem processTxQueue_stops_after_one_send :
    (Satellite.processTxQueue 0
      ⟨[⟨0, 0⟩, ⟨0, 0⟩], fun _ => 0, fun _ => 1000000000, false, 0, [],
        0⟩).queue = [⟨0, 0⟩]
  ∧ ¬ ((0 : ℚ) < (Satellite.processTxQueue 0
      ⟨[⟨0, 0⟩, ⟨0, 0⟩], fun _ => 0, fun _ => 1000000000, false, 0, [],
        0⟩).busyUntil 0)
  ∧ (Satellite.processTxQueue 0
      ⟨[⟨0, 0⟩, ⟨0, 0⟩], fun _ => 0, fun _ => 1000000000, false, 0, [],
        0⟩).sent = [⟨0, 0⟩] := by
  refine ⟨?_, ?_, ?_⟩ <;> norm_num [Satellite.processTxQueue]

/-- Amended claim C5: one invocation of processTxQueue transmits at most one
message.  With the head's channel free it pops and sends exactly the head and
returns; with the channel busy it only schedules the tx-finish wake (if not
already scheduled); the ground-station variant additionally returns with the
queue untouched when its dynamic gate is disconnected.  Remaining messages
wait for a later invocation. -/
theorem processTxQueue_sends_at_most_head (now : ℚ) (s : SatTxState)
    (g : GSTxState) (m : TxMsg) (rest : List TxMsg) :
    (s.queue = m :: rest → ¬ now < s.busyUntil m.gateIndex →
      Satellite.processTxQueue now s =
        { s with queue := rest, sent := s.sent ++ [m],
                 busyUntil := fun gi => if gi = m.gateIndex
                   then now + m.bitLength / s.datarate m.gateIndex
                   else s.busyUntil gi })
  ∧ (s.queue = m :: rest → now < s.busyUntil m.gateIndex →
      Satellite.processTxQueue now s =
        if s.timerScheduled then s
        else { s with timerScheduled := true,
                      timerAt := s.busyUntil m.gateIndex })
  ∧ (g.queue = m :: rest → g.gateCount ≠ 0 → g.gateConnected = true →
      ¬ now < g.busyUntil →
      GroundStation.processTxQueue now g =
        { g with queue := rest, sent := g.sent ++ [m],
                 busyUntil := now + m.bitLength / g.datarate })
  ∧ (g.gateConnected = false → GroundStation.processTxQueue now g = g) := by
  refine ⟨?_, ?_, ?_, ?_⟩
  · intro hq hb
    simp only [Satellite.processTxQueue, hq]
    rw [if_neg hb]
  · intro hq hb
    simp only [Satellite.processTxQueue, hq]
    rw [if_pos hb]
  · intro hq hg hc hb
    simp only [GroundStation.processTxQueue, hq]
    rw [if_neg hg]
    rw [if_neg (show ¬ (g.gateConnected = false) from by simp [hc])]
    rw [if_neg hb]
  · intro hc
    cases hq : g.queue with
    | nil => simp [GroundStation.processTxQueue, hq]
    | cons m1 r1 => simp [GroundStation.processTxQueue, hq, hc]

/-- Witness for the amended C5: a satellite with two queued zero-length
messages and a free channel sends exactly the head. -/
theorem processTxQueue_sends_at_most_head_witness :
    (Satellite.processTxQueue 0
      ⟨[⟨0, 0⟩, ⟨0, 1⟩], fun _ => 0, fun _ => 1000000000, false, 0, [],
        0⟩).queue = [⟨0, 1⟩]
  ∧ (Satellite.processTxQueue 0
      ⟨[⟨0, 0⟩, ⟨0, 1⟩], fun _ => 0, fun _ => 1000000000, false, 0, [],
        0⟩).sent = [⟨0, 0⟩] := by
  have h := (processTxQueue_sends_at_most_head 0
    ⟨[⟨0, 0⟩, ⟨0, 1⟩], fun _ => 0, fun _ => 1000000000, false, 0, [], 0⟩
    ⟨[], 0, false, 0, 1, false, 0, [], 0, 0, false⟩
    ⟨0, 0⟩ [⟨0, 1⟩]).1 rfl (by norm_num)
  rw [h]
  exact ⟨rfl, rfl⟩

/-- Claim C6: enqueueing on a full queue of 1000 messages drops the message
and increments the drop counter, enqueueing on a non-full queue appends it
(and then runs the transmit step), and a queue within its 1000-message bound
stays within it — for the satellite and the ground station alike. -/
theorem sendOrQueue_bounded (now : ℚ) (s : SatTxState) (g : GSTxState)
    (m1 m2 : TxMsg) :
    (1000 ≤ s.queue.length →
      Satellite.sendOrQueue 1000 now s m1 =
        { s with packetsDropped := s.packetsDropped + 1 })
  ∧ (s.queue.length < 1000 →
      Satellite.sendOrQueue 1000 now s m1 =
        Satellite.processTxQueue now { s with queue := s.queue ++ [m1] })
  ∧ (s.queue.length ≤ 1000 →
      (Satellite.sendOrQueue 1000 now s m1).queue.length ≤ 1000)
  ∧ (1000 ≤ g.queue.length →
      GroundStation.sendOrQueue 1000 now g m2 =
        { g with packetsDropped := g.packetsDropped + 1 })
  ∧ (g.queue.length < 1000 →
      GroundStation.sendOrQueue 1000 now g m2 =
        GroundStation.processTxQueue now { g with queue := g.queue ++ [m2] })
  ∧ (g.queue.length ≤ 1000 →
      (GroundStation.sendOrQueue 1000 now g m2).queue.length ≤ 1000) := by
  refine ⟨?_, ?_, ?_, ?_, ?_, ?_⟩
  · intro h
    simp only [Satellite.sendOrQueue]
    rw [if_pos h]
  · intro h
    simp only [Satellite.sendOrQueue]
    rw [if_neg (by omega)]
  · intro h
    rcases lt_or_le s.queue.length 1000 with hlt | hge
    · simp only [Satellite.sendOrQueue]
      rw [if_neg (by omega)]
      have h2 := processTxQueue_queue_le now { s with queue := s.queue ++ [m1] }
      simp at h2
      omega
    · simp only [Satellite.sendOrQueue]
      rw [if_pos (by omega)]
      exact h
  · intro h
    simp only [GroundStation.sendOrQueue]
    rw [if_pos h]
  · intro h
    simp only [GroundStation.sendOrQueue]
    rw [if_neg (by omega)]
  · intro h
    rcases lt_or_le g.queue.length 1000 with hlt | hge
    · simp only [GroundStation.sendOrQueue]
      rw [if_neg (by omega)]
      have h2 := gs_processTxQueue_queue_le now
        { g with queue := g.queue ++ [m2] }
      simp at h2
      omega
    · simp only [GroundStation.sendOrQueue]
      rw [if_pos (by omega)]
      exact h

/-- Witness for C6: enqueueing on an idle satellite and ground station keeps
both queues within the 1000-message bound. -/
theorem sendOrQueue_bounded_witness :
    (Satellite.sendOrQueue 1000 0
      ⟨[], fun _ => 0, fun _ => 1000000000, false, 0, [], 0⟩
      ⟨8192, 0⟩).queue.length ≤ 1000
  ∧ (GroundStation.sendOrQueue 1000 0
      ⟨[], 1, true, 0, 4000000000, false, 0, [], 0, 0, true⟩
      ⟨8192, 0⟩).queue.length ≤ 1000 := by
  obtain ⟨h1, h2, h3, h4, h5, h6⟩ := sendOrQueue_bounded 0
    ⟨[], fun _ => 0, fun _ => 1000000000, false, 0, [], 0⟩
    ⟨[], 1, true, 0, 4000000000, false, 0, [], 0, 0, true⟩ ⟨8192, 0⟩ ⟨8192, 0⟩
  exact ⟨h3 (by norm_num), h6 (by norm_num)⟩

/-- Claim C7: a ground station with no current satellite, an empty dynamic
gate array, or a disconnected dynamic gate drops any submitted packet,
increments only its drop counter, and leaves the transmit queue and all other
state unchanged. -/
theorem unattached_send_drops (maxQ : Nat) (now : ℚ) (g : GSTxState)
    (m : TxMsg) (isData : Bool)
    (h : g.attached = false ∨ g.gateCount = 0 ∨ g.gateConnected = false) :
    GroundStation.sendToCurrentSatellite maxQ now g m isData =
      { g with packetsDropped := g.packetsDropped + 1 } := by
  unfold GroundStation.sendToCurrentSatellite
  rcases h with h | h | h
  · rw [if_pos (Or.inl h)]
  · rw [if_pos (Or.inr h)]
  · by_cases h2 : g.attached = false ∨ g.gateCount = 0
    · rw [if_pos h2]
    · rw [if_neg h2, if_pos h]

/-- Witness for C7: an unattached ground station submitting a data packet
ends with only its drop counter incremented. -/
theorem unattached_send_drops_witness :
    GroundStation.sendToCurrentSatellite 1000 0
      ⟨[], 0, false, 0, 4000000000, false, 0, [], 0, 0, false⟩ ⟨8192, 0⟩ true =
      ⟨[], 0, false, 0, 4000000000, false, 0, [], 0, 1, false⟩ := by
  exact unattached_send_drops 1000 0
    ⟨[], 0, false, 0, 4000000000, false, 0, [], 0, 0, false⟩ ⟨8192, 0⟩ true
    (Or.inl rfl)

/-- Claim C8: when the nearest in-range satellite is the currently attached
one the handover step is a no-op; otherwise, with a best satellite s, the
ground station ends attached to s, s's radio gate array has grown by one, the
ground station holds the freshly allocated gate index, and — after the old
link was torn down when one existed — exactly two fresh links are wired, each
with datarate 4 Gb/s and delay = distance / 299792.458 + 1 ms. -/
theorem performHandover_spec (maxRange : ℚ) (dist : Int → ℚ) (sats : List Int)
    (st : GSHandoverState) :
    (GroundStation.findNearestSatellite maxRange dist sats = st.attached →
      GroundStation.performHandover maxRange dist sats st = st)
  ∧ (∀ s : Int,
      GroundStation.findNearestSatellite maxRange dist sats = some s →
      some s ≠ st.attached →
      (GroundStation.performHandover maxRange dist sats st).attached = some s
    ∧ (GroundStation.performHandover maxRange dist sats st).satGates s =
        st.satGates s + 1
    ∧ (GroundStation.performHandover maxRange dist sats st).satGateIndex =
        (st.satGates s : Int)
    ∧ (GroundStation.performHandover maxRange dist sats st).activeLinks =
        (if st.attached.isSome then GroundStation.disconnectFromSatellite st
         else st).activeLinks ++
          [{ fromGround := true, datarate := 4000000000,
             delay := dist s / (299792458 / 1000) + 1 / 1000 },
           { fromGround := false, datarate := 4000000000,
             delay := dist s / (299792458 / 1000) + 1 / 1000 }]) := by
  constructor
  · intro hb
    simp only [GroundStation.performHandover, hb]
    simp
  · intro s hb hne
    have hmain : GroundStation.performHandover maxRange dist sats st =
        GroundStation.connectToSatellite dist s
          { (if st.attached.isSome then GroundStation.disconnectFromSatellite st
             else st) with attached := some s } := by
      simp only [GroundStation.performHandover, hb]
      rw [if_neg hne]
    have hgates : (if st.attached.isSome then
        GroundStation.disconnectFromSatellite st else st).satGates =
          st.satGates := by
      unfold GroundStation.disconnectFromSatellite
      split
      · split <;> rfl
      · rfl
    rw [hmain]
    refine ⟨rfl, ?_, ?_, ?_⟩
    · simp [GroundStation.connectToSatellite, hgates]
    · simp [GroundStation.connectToSatellite, hgates]
    · simp [GroundStation.connectToSatellite]

/-- Witness for C8: an unattached ground station 100 km-range with one
satellite (id 5) at distance 10 km and 2 radio gates attaches to it, the gate
array grows to 3, the fresh index is 2, and the two 4 Gb/s links carry delay
10 / 299792.458 + 0.001 s. -/
theorem performHandover_spec_witness :
    (GroundStation.performHandover 100 (fun _ => 10) [5]
      ⟨none, 0, fun _ => 2, -1, []⟩).attached = some 5
  ∧ (GroundStation.performHandover 100 (fun _ => 10) [5]
      ⟨none, 0, fun _ => 2, -1, []⟩).satGates 5 = 3
  ∧ (GroundStation.performHandover 100 (fun _ => 10) [5]
      ⟨none, 0, fun _ => 2, -1, []⟩).satGateIndex = 2
  ∧ (GroundStation.performHandover 100 (fun _ => 10) [5]
      ⟨none, 0, fun _ => 2, -1, []⟩).activeLinks =
      [{ fromGround := true, datarate := 4000000000,
         delay := 10 / (299792458 / 1000) + 1 / 1000 },
       { fromGround := false, datarate := 4000000000,
         delay := 10 / (299792458 / 1000) + 1 / 1000 }] := by
  have h := (performHandover_spec 100 (fun _ => 10) [5]
    ⟨none, 0, fun _ => 2, -1, []⟩).2 5
    (by norm_num [GroundStation.findNearestSatellite]) (by simp)
  obtain ⟨h1, h2, h3, h4⟩ := h
  exact ⟨h1, by rw [h2], by rw [h3]; rfl, by rw [h4]; rfl⟩

/-- The Euclidean norm of the spherical parametrisation used by geoToECEF is
the radius. -/
theorem sphere_norm (r0 phi lam : ℝ) (hr0 : 0 ≤ r0) :
    Real.sqrt (r0 * Real.cos phi * Real.cos lam *
        (r0 * Real.cos phi * Real.cos lam)
      + r0 * Real.cos phi * Real.sin lam *
        (r0 * Real.cos phi * Real.sin lam)
      + r0 * Real.sin phi * (r0 * Real.sin phi)) = r0 := by
  have hc : Real.cos lam ^ 2 + Real.sin lam ^ 2 = 1 := Real.cos_sq_add_sin_sq lam
  have hc2 : Real.cos phi ^ 2 + Real.sin phi ^ 2 = 1 := Real.cos_sq_add_sin_sq phi
  have h1 : r0 * Real.cos phi * Real.cos lam *
        (r0 * Real.cos phi * Real.cos lam)
      + r0 * Real.cos phi * Real.sin lam *
        (r0 * Real.cos phi * Real.sin lam)
      + r0 * Real.sin phi * (r0 * Real.sin phi) = r0 ^ 2 := by
    linear_combination (r0 ^ 2 * Real.cos phi ^ 2) * hc + r0 ^ 2 * hc2
  rw [h1, Real.sqrt_sq hr0]

/-- Exact form of the geodesy round trip: within the principal ranges the
spherical inverse recovers the coordinate exactly. -/
theorem geo_roundtrip_exact (lat lon alt : ℝ)
    (hlat1 : -90 < lat) (hlat2 : lat < 90)
    (hlon1 : -180 < lon) (hlon2 : lon ≤ 180)
    (halt : -6371 < alt) :
    Geo.ecefToGeo (Geo.geoToECEF ⟨lat, lon, alt⟩) = ⟨lat, lon, alt⟩ := by
  have hpi := Real.pi_pos
  have hr0 : (0 : ℝ) < 6371 + alt := by linarith
  have hphi1 : -(Real.pi / 2) < lat * Real.pi / 180 := by
    nlinarith [mul_pos (show (0 : ℝ) < lat + 90 by linarith) hpi]
  have hphi2 : lat * Real.pi / 180 < Real.pi / 2 := by
    nlinarith [mul_pos (show (0 : ℝ) < 90 - lat by linarith) hpi]
  have hlam1 : -Real.pi < lon * Real.pi / 180 := by
    nlinarith [mul_pos (show (0 : ℝ) < lon + 180 by linarith) hpi]
  have hlam2 : lon * Real.pi / 180 ≤ Real.pi := by
    nlinarith [mul_nonneg (show (0 : ℝ) ≤ 180 - lon by linarith) hpi.le]
  have hcosphi : (0 : ℝ) < Real.cos (lat * Real.pi / 180) :=
    Real.cos_pos_of_mem_Ioo ⟨hphi1, hphi2⟩
  simp only [Geo.ecefToGeo, Geo.geoToECEF, Geo.deg2rad, Geo.atan2,
    Geo.earthRadius]
  have hsqrt := sphere_norm (6371 + alt) (lat * Real.pi / 180)
    (lon * Real.pi / 180) hr0.le
  rw [Geo.GeoCoord.mk.injEq]
  refine ⟨?_, ?_, ?_⟩
  · rw [hsqrt]
    rw [mul_div_assoc, mul_div_cancel_left₀ _ (ne_of_gt hr0)]
    rw [Real.arcsin_sin (by linarith) (by linarith)]
    field_simp
  · have hxy : (⟨(6371 + alt) * Real.cos (lat * Real.pi / 180) *
          Real.cos (lon * Real.pi / 180),
        (6371 + alt) * Real.cos (lat * Real.pi / 180) *
          Real.sin (lon * Real.pi / 180)⟩ : ℂ) =
        ↑((6371 + alt) * Real.cos (lat * Real.pi / 180)) *
          (Complex.cos ↑(lon * Real.pi / 180) +
            Complex.sin ↑(lon * Real.pi / 180) * Complex.I) := by
      rw [Complex.mk_eq_add_mul_I]
      push_cast
      ring
    rw [hxy, Complex.arg_mul_cos_add_sin_mul_I (mul_pos hr0 hcosphi)
      ⟨hlam1, hlam2⟩]
    field_simp
  · rw [hsqrt]
    ring

/-- Claim C9: inside latitude (-90, 90), longitude (-180, 180] and altitude
above -6371 km, geoToECEF followed by ecefToGeo returns the original
coordinate to within 1e-9 degrees / 1e-9 km (the round trip is in fact
exact). -/
theorem geo_roundtrip (lat lon alt : ℝ)
    (hlat1 : -90 < lat) (hlat2 : lat < 90)
    (hlon1 : -180 < lon) (hlon2 : lon ≤ 180)
    (halt : -6371 < alt) :
    |(Geo.ecefToGeo (Geo.geoToECEF ⟨lat, lon, alt⟩)).latitude - lat|
        ≤ 1 / 10 ^ 9
  ∧ |(Geo.ecefToGeo (Geo.geoToECEF ⟨lat, lon, alt⟩)).longitude - lon|
        ≤ 1 / 10 ^ 9
  ∧ |(Geo.ecefToGeo (Geo.geoToECEF ⟨lat, lon, alt⟩)).altitude - alt|
        ≤ 1 / 10 ^ 9 := by
  rw [geo_roundtrip_exact lat lon alt hlat1 hlat2 hlon1 hlon2 halt]
  norm_num

/-- Witness for C9: the round trip at latitude 45, longitude 30, altitude
2 km stays within the tolerance. -/
theorem geo_roundtrip_witness :
    ((-90 : ℝ) < 45 ∧ (45 : ℝ) < 90 ∧ (-180 : ℝ) < 30 ∧ (30 : ℝ) ≤ 180
      ∧ (-6371 : ℝ) < 2)
  ∧ |(Geo.ecefToGeo (Geo.geoToECEF ⟨45, 30, 2⟩)).latitude - 45| ≤ 1 / 10 ^ 9
  ∧ |(Geo.ecefToGeo (Geo.geoToECEF ⟨45, 30, 2⟩)).longitude - 30| ≤ 1 / 10 ^ 9
  ∧ |(Geo.ecefToGeo (Geo.geoToECEF ⟨45, 30, 2⟩)).altitude - 2| ≤ 1 / 10 ^ 9 := by
  refine ⟨by norm_num, ?_⟩
  exact geo_roundtrip 45 30 2 (by norm_num) (by norm_num) (by norm_num)
    (by norm_num) (by norm_num)

end LeoSim
